import Mathlib

/-!
Shallow embedding of the trade-ledger analytics engine of
`streamlit_dashboard.py`: record normalization, query filtering,
aggregation, equity-curve reconstruction, latest-exit selection, and the
TTL cache, together with proofs of the specified properties.
-/

namespace Dashboard

/-! ### Python values

The exit flag column holds heterogeneous Python values (booleans, strings,
numbers, `None`).  `PyVal` is the universe of values the dashboard's
normalization has to handle.  A float is encoded as a decimal
`m / 10 ^ e` (Python floats appearing in the ledger are decimals such as
`1.0`); its rendering below matches Python `str` on such values. -/
inductive PyVal where
  | bool : Bool → PyVal
  | none : PyVal
  | str : String → PyVal
  | int : Int → PyVal
  | float : Int → Nat → PyVal
deriving DecidableEq

/-- Left-pad a digit list with `'0'` up to length `n`. -/
def leftPadZeros (n : Nat) (l : List Char) : List Char :=
  List.replicate (n - l.length) '0' ++ l

/-- Drop trailing `'0'` characters. -/
def dropTrailingZeros (l : List Char) : List Char :=
  (l.reverse.dropWhile (fun c => c == '0')).reverse

/-- Rendering of the float `m / 10 ^ e`, as Python `str` renders it:
integer part, a dot, and the fractional digits with trailing zeros removed
but at least one digit kept (`str(1.0) == "1.0"`, `str(0.0) == "0.0"`). -/
def pyFloatStr (m : Int) (e : Nat) : String :=
  let n := m.natAbs
  let p := 10 ^ e
  let frac := dropTrailingZeros (leftPadZeros e (toString (n % p)).data)
  let frac := if frac = [] then ['0'] else frac
  (if m < 0 then "-" else "") ++ toString (n / p) ++ "." ++ String.mk frac

/-- Python `str(val)` on the values of `PyVal`. -/
def pyStr : PyVal → String
  | .bool true => "True"
  | .bool false => "False"
  | .none => "None"
  | .str s => s
  | .int n => toString n
  | .float m e => pyFloatStr m e

/-- Python `val == False` (numeric values equal to zero compare equal to
`False`; strings and `None` do not). -/
def pyEqFalse : PyVal → Bool
  | .bool b => !b
  | .int n => n == 0
  | .float m _ => m == 0
  | _ => false

/-- Python `s.strip()`: remove leading and trailing whitespace. -/
def pyStrip (s : String) : String :=
  String.mk (((s.data.dropWhile Char.isWhitespace).reverse.dropWhile
    Char.isWhitespace).reverse)

/-- Python `s.lower()` (ASCII case folding). -/
def pyLower (s : String) : String := String.mk (s.data.map Char.toLower)

/-- The truthy set of `normalize_exit_flag`. -/
def truthyStrings : List String := ["true", "1", "t", "yes", "y"]

/-- `normalize_exit_flag` from the source: `True` is accepted as-is, a
value `in [False, None]` is false, anything else is matched by
`str(val).strip().lower()` against the truthy set. -/
def normalize_exit_flag (val : PyVal) : Bool :=
  if val = .bool true then true
  else if pyEqFalse val || val = .none then false
  else truthyStrings.contains (pyLower (pyStrip (pyStr val)))

/-! ### Trade rows and data frames

A row of the `trades` table.  Numeric cells are `Option Int` (`Option.none`
is SQL null / pandas NaN; `fillna` turns it into the given default).
`is_exit` is kept as a raw `PyVal`, exactly as the dashboard receives it,
and is only interpreted through `normalize_exit_flag`. -/
structure TradeRow where
  ts : Option Int
  symbol : Option String
  is_exit : PyVal
  realized_pnl : Option Int
  pnl : Option Int
  win : Option Bool
deriving DecidableEq

/-- A pandas `DataFrame` of trade rows.  Column presence is a property of
the frame, not of a row: `"realized_pnl" in df.columns` and
`"win" in df.columns` are the two membership tests the source performs,
recorded here as the two flags. -/
structure Frame where
  has_realized_pnl : Bool
  has_win : Bool
  rows : List TradeRow
deriving DecidableEq

/-- `pd.DataFrame()`: the frame with no rows and no columns. -/
def emptyFrame : Frame := ⟨false, false, []⟩

/-- The exit set: rows whose normalized exit flag is true
(`df[df["is_exit_norm"] == True]`). -/
def exitRows (f : Frame) : List TradeRow :=
  f.rows.filter (fun r => normalize_exit_flag r.is_exit)

/-- The selected P&L cell of a row: `realized_pnl` when that column was
chosen for the dataset, else `pnl`. -/
def pnlCell (useRealized : Bool) (r : TradeRow) : Option Int :=
  if useRealized then r.realized_pnl else r.pnl

/-- The selected P&L cell after `fillna(0)`. -/
def pnlFilled (useRealized : Bool) (r : TradeRow) : Int :=
  (pnlCell useRealized r).getD 0

/-- The metrics the Daily Performance section computes. -/
structure DailySummary where
  total_exits : Nat
  total_pnl : Int
  wins : Nat
  win_rate : Rat
deriving DecidableEq

/-- The Daily Performance computation of the source: filter to the exit
set, choose the P&L column once for the dataset
(`"realized_pnl" if "realized_pnl" in exits.columns else "pnl"`), sum it
with nulls as 0, count wins (0 when the `win` column is absent), and set
`win_rate = wins / total_exits * 100 if total_exits else 0`. -/
def daily_summary (f : Frame) : DailySummary :=
  let exits := exitRows f
  let useR := f.has_realized_pnl
  let total_pnl := (exits.map (pnlFilled useR)).sum
  let wins := if f.has_win then (exits.filter (fun r => r.win.getD false)).length else 0
  let total_exits := exits.length
  let win_rate : Rat :=
    if total_exits ≠ 0 then (wins : Rat) / (total_exits : Rat) * 100 else 0
  ⟨total_exits, total_pnl, wins, win_rate⟩

/-! ### Sorting by timestamp

`sort_values("ts")` and `sort_values("ts", ascending=False)`: rows are
ordered by their timestamp, with null timestamps placed last
(pandas `na_position="last"`).  The claims do not pin down the order of
timestamp ties, so any sort consistent with the key is a faithful model;
we use insertion sort, which the kernel can evaluate. -/

/-- Ascending-by-timestamp comparison, null timestamps last. -/
def tsLeB (a b : TradeRow) : Bool :=
  match a.ts, b.ts with
  | some x, some y => decide (x ≤ y)
  | some _, Option.none => true
  | Option.none, some _ => false
  | Option.none, Option.none => true

/-- Descending-by-timestamp comparison, null timestamps last. -/
def tsGeB (a b : TradeRow) : Bool :=
  match a.ts, b.ts with
  | some x, some y => decide (y ≤ x)
  | some _, Option.none => true
  | Option.none, some _ => false
  | Option.none, Option.none => true

def tsLe (a b : TradeRow) : Prop := tsLeB a b = true

def tsGe (a b : TradeRow) : Prop := tsGeB a b = true

instance : DecidableRel tsLe := fun a b => inferInstanceAs (Decidable (_ = true))

instance : DecidableRel tsGe := fun a b => inferInstanceAs (Decidable (_ = true))

instance : IsTotal TradeRow tsLe :=
  ⟨fun a b => by
    unfold tsLe tsLeB
    rcases a.ts with _ | x <;> rcases b.ts with _ | y <;> simp <;> omega⟩

instance : IsTrans TradeRow tsLe :=
  ⟨fun a b c => by
    unfold tsLe tsLeB
    rcases a.ts with _ | x <;> rcases b.ts with _ | y <;> rcases c.ts with _ | z <;>
      simp <;> omega⟩

instance : IsTotal TradeRow tsGe :=
  ⟨fun a b => by
    unfold tsGe tsGeB
    rcases a.ts with _ | x <;> rcases b.ts with _ | y <;> simp <;> omega⟩

instance : IsTrans TradeRow tsGe :=
  ⟨fun a b c => by
    unfold tsGe tsGeB
    rcases a.ts with _ | x <;> rcases b.ts with _ | y <;> rcases c.ts with _ | z <;>
      simp <;> omega⟩

/-- `df.sort_values("ts")`. -/
def sortByTsAsc (l : List TradeRow) : List TradeRow := List.insertionSort tsLe l

/-- `df.sort_values("ts", ascending=False)`. -/
def sortByTsDesc (l : List TradeRow) : List TradeRow := List.insertionSort tsGe l

/-! ### Equity curve -/

/-- One point of the reconstructed equity curve: timestamp, cumulative
realized P&L since the range start, and `equity = base + cum_pnl`. -/
structure EquityPoint where
  ts : Option Int
  cum_pnl : Int
  equity : Int
deriving DecidableEq

/-- The running-cumulative-sum pass over already-sorted exits
(`curve["cum_pnl"] = curve[pnl_col].fillna(0).cumsum()`,
`curve["equity"] = BASE_EQUITY + curve["cum_pnl"]`), carrying the
cumulative sum `acc` reached so far. -/
def curvePoints (useR : Bool) (base : Int) : List TradeRow → Int → List EquityPoint
  | [], _ => []
  | r :: rs, acc =>
    let c := acc + pnlFilled useR r
    ⟨r.ts, c, base + c⟩ :: curvePoints useR base rs c

/-- Microseconds per day; `datetime.combine(day, time.min)` is the first
and `datetime.combine(day, time.max)` the last microsecond of the day. -/
def usPerDay : Int := 86400000000

def dayStartTs (d : Int) : Int := d * usPerDay

def dayEndTs (d : Int) : Int := d * usPerDay + (usPerDay - 1)

/-- `datetime.combine(curve["ts"].min().date(), time.min)`: the start of
the day of the earliest non-null timestamp.  The source raises on this
expression when every timestamp is null; that case is unreachable in the
claims and is given the junk value 0 here. -/
def firstTsDayFloor (l : List TradeRow) : Int :=
  match (l.filterMap TradeRow.ts).min? with
  | some t => (Int.fdiv t usPerDay) * usPerDay
  | Option.none => 0

/-- A sorted exit list turned into a curve: the synthetic anchor point
(cumulative P&L 0, equity = base) followed by one point per exit. -/
def curveOf (useR : Bool) (base anchorTs : Int) (exits : List TradeRow) : List EquityPoint :=
  ⟨some anchorTs, 0, base⟩ :: curvePoints useR base (sortByTsAsc exits) 0

/-- The Portfolio Value section of the source: no chart when the range
frame has no rows, no chart when it has no exit rows, otherwise the curve
anchored at the range start (or at the first exit's day when the range is
unbounded). -/
def range_curve (f : Frame) (range_start : Option Int) (base : Int) :
    Option (List EquityPoint) :=
  if f.rows = [] then Option.none
  else
    let exits := exitRows f
    if exits = [] then Option.none
    else
      let useR := f.has_realized_pnl
      let anchorTs : Int :=
        match range_start with
        | some d => dayStartTs d
        | Option.none => firstTsDayFloor (sortByTsAsc exits)
      some (curveOf useR base anchorTs exits)

/-- The equity of the last point of a curve (0 for the empty list, which
never arises: every built curve starts with its anchor). -/
def finalEquity (c : List EquityPoint) : Int :=
  match c.getLast? with
  | some p => p.equity
  | Option.none => 0

/-- Total P&L of a list of rows under the selected column, nulls as 0. -/
def sumPnl (useR : Bool) (l : List TradeRow) : Int := (l.map (pnlFilled useR)).sum

/-- The concatenation described by the spec's idempotence property: the
first sub-curve followed by the second sub-curve with its (claimed
duplicated) anchor point dropped. -/
def concatDropAnchor (c1 c2 : List EquityPoint) : List EquityPoint := c1 ++ c2.tail

/-! ### Latest exits -/

/-- The qualifying rows of the Latest-10 section: normalized exit flag
true and the selected P&L cell non-null
(`df_all[(df_all["is_exit_norm"] == True) & df_all[pnl_col_global].notna()]`). -/
def qualifyingExitRows (f : Frame) : List TradeRow :=
  f.rows.filter (fun r => normalize_exit_flag r.is_exit && (pnlCell f.has_realized_pnl r).isSome)

/-- `df_exits.sort_values("ts", ascending=False).head(n)` over the
qualifying rows (the source uses `n = 10`). -/
def latest_exits (f : Frame) (n : Nat) : List TradeRow :=
  (sortByTsDesc (qualifyingExitRows f)).take n

/-- The whole Latest-10 section.  On a frame with no rows the very first
statement, `df_all["is_exit"]`, raises `KeyError` (an empty `DataFrame`
has no columns), modelled as `Option.none`; otherwise the qualifying rows
are selected, sorted descending and truncated. -/
def latest_exits_section (f : Frame) (n : Nat) : Option (List TradeRow) :=
  if f.rows = [] then Option.none
  else some (latest_exits f n)

/-! ### Query layer

`fetch_trades` / `fetch_trades_range` build a Ledger Store query: an
optional equality filter on `symbol`, an optional inclusive timestamp
range, ascending order by `ts`.  The table is modelled as a `Frame`
(its column set plus its rows); the result `DataFrame` keeps the table's
columns when it has rows and is `pd.DataFrame()` otherwise. -/

/-- Python truthiness of the `symbol` argument (`if symbol:`): `None` and
the empty string are falsy, any other string truthy. -/
def symbolTruthy : Option String → Bool
  | some s => !(s == "")
  | Option.none => false

/-- `q.eq("symbol", symbol)` when the symbol argument is truthy. -/
def applySymbolFilter (symbol : Option String) (rows : List TradeRow) : List TradeRow :=
  if symbolTruthy symbol then rows.filter (fun r => r.symbol == symbol) else rows

/-- Inclusive-day-range test on a row's timestamp; a null timestamp never
matches an SQL range filter. -/
def tsInDayRange (s e : Int) (r : TradeRow) : Bool :=
  match r.ts with
  | some t => decide (dayStartTs s ≤ t) && decide (t ≤ dayEndTs e)
  | Option.none => false

/-- The timestamp bound of `fetch_trades_range`: applied only under
`if start_day and end_day:`, i.e. only when both ends are given. -/
def applyRangeFilter (sd ed : Option Int) (rows : List TradeRow) : List TradeRow :=
  match sd, ed with
  | some s, some e => rows.filter (tsInDayRange s e)
  | _, _ => rows

/-- Result frame of a query: the table's columns with the selected rows,
or the empty frame when no row matched (`pd.DataFrame(data or [])`). -/
def frameOf (tbl : Frame) (rows : List TradeRow) : Frame :=
  if rows = [] then emptyFrame else { tbl with rows := rows }

/-- `fetch_trades_range(symbol, start_day, end_day)` as a pure query over
the table. -/
def fetch_trades_range (tbl : Frame) (symbol : Option String) (sd ed : Option Int) : Frame :=
  frameOf tbl (sortByTsAsc (applyRangeFilter sd ed (applySymbolFilter symbol tbl.rows)))

/-- The single-day bound of `fetch_trades` (`if day:`). -/
def applyDayFilter (d : Option Int) (rows : List TradeRow) : List TradeRow :=
  match d with
  | some day => rows.filter (tsInDayRange day day)
  | Option.none => rows

/-- `fetch_trades(symbol, day)` as a pure query over the table. -/
def fetch_trades_query (tbl : Frame) (symbol : Option String) (day : Option Int) : Frame :=
  frameOf tbl (sortByTsAsc (applyDayFilter day (applySymbolFilter symbol tbl.rows)))

/-- The `try`/`except` body of every fetch function: an underlying query
result is either rows or a raised error; on error the source shows
`st.error(...)` and returns `pd.DataFrame()`, a normal (cacheable) empty
frame. -/
def fetch_trades_body (queryResult : Except String Frame) : Frame :=
  match queryResult with
  | .ok f => f
  | .error _ => emptyFrame

/-! ### Cache layer

`@st.cache_data(ttl=10)` memoizes a function's return value per argument
tuple; an entry is reused while its age is below the TTL; `st.cache_data.clear()`
discards every entry.  Exceptions are never cached, but the fetch bodies
never raise: their `except` branch returns a value. -/

/-- The memo table: one `(key, value, fetchedAt)` entry per key. -/
structure CacheState (κ ν : Type) where
  entries : List (κ × ν × Nat)
deriving DecidableEq

/-- The entry stored for a key, if any. -/
def CacheState.lookup [BEq κ] (c : CacheState κ ν) (k : κ) : Option (ν × Nat) :=
  (c.entries.find? (fun e => e.1 == k)).map (fun e => e.2)

/-- Install a fresh entry for a key, superseding any old one. -/
def CacheState.store [BEq κ] (c : CacheState κ ν) (k : κ) (v : ν) (now : Nat) :
    CacheState κ ν :=
  ⟨(k, v, now) :: c.entries.filter (fun e => !(e.1 == k))⟩

/-- `st.cache_data.clear()`: discard all entries. -/
def CacheState.clear (_ : CacheState κ ν) : CacheState κ ν := ⟨[]⟩

/-- One call through the cache: a stored value younger than the TTL is
returned as a hit; otherwise the underlying function runs and its value
is stored.  The boolean reports whether an underlying fetch happened. -/
def cachedFetch [BEq κ] (fetch : κ → ν) (ttl : Nat) (now : Nat) (k : κ)
    (c : CacheState κ ν) : ν × CacheState κ ν × Bool :=
  match c.lookup k with
  | some (v, t) =>
    if now - t < ttl then (v, c, false)
    else
      let v := fetch k
      (v, c.store k v now, true)
  | Option.none =>
    let v := fetch k
    (v, c.store k v now, true)

/-- The TTL of every fetch function in the source (`ttl=10`). -/
def TTL_TRADES : Nat := 10

/-- Cache key of `fetch_trades`: its argument tuple `(symbol, day)`. -/
abbrev TradesKey := Option String × Option Int

/-- `fetch_trades` as deployed: its body (underlying ledger query with
the `try`/`except` wrapper) behind the `st.cache_data` layer. -/
def fetch_trades_cached (ledger : TradesKey → Except String Frame) (now : Nat)
    (k : TradesKey) (c : CacheState TradesKey Frame) :
    Frame × CacheState TradesKey Frame × Bool :=
  cachedFetch (fun k => fetch_trades_body (ledger k)) TTL_TRADES now k c

/-! ### Helper lemmas -/

theorem dropTrailingZeros_eq_nil (l : List Char) (h : ∀ c ∈ l, c = '0') :
    dropTrailingZeros l = [] := by
  unfold dropTrailingZeros
  have hrev : l.reverse.dropWhile (fun c => c == '0') = [] := by
    rw [List.dropWhile_eq_nil_iff]
    intro x hx
    have := h x (List.mem_reverse.mp hx)
    simp [this]
  rw [hrev, List.reverse_nil]

theorem dropTrailingZeros_pad_zero (e : Nat) :
    dropTrailingZeros (leftPadZeros e (toString (0 : Nat)).data) = [] := by
  apply dropTrailingZeros_eq_nil
  intro c hc
  unfold leftPadZeros at hc
  rcases List.mem_append.mp hc with h | h
  · exact List.eq_of_mem_replicate h
  · have hz : (toString (0 : Nat)).data = ['0'] := by decide
    rw [hz] at h
    simpa using h

/-- A zero float renders as Python renders it: `str(0.0) == "0.0"`. -/
theorem pyFloatStr_zero (e : Nat) : pyFloatStr 0 e = "0.0" := by
  simp only [pyFloatStr, Int.natAbs_zero, Nat.zero_mod, Nat.zero_div,
    dropTrailingZeros_pad_zero]
  decide

/-- Exit-flag normalization characterized in closed form: true exactly for
boolean `True` and for any value whose textual form, whitespace-stripped
and case-folded, lies in the truthy set.  (The early `val in [False, None]`
branch of the source is redundant with this characterization: the textual
forms of `False`, `None`, `0` and `0.0` are never in the truthy set.) -/
theorem exit_flag_characterization (v : PyVal) :
    normalize_exit_flag v = true ↔
      (v = PyVal.bool true ∨
        truthyStrings.contains (pyLower (pyStrip (pyStr v))) = true) := by
  match v with
  | .bool true => decide
  | .bool false => decide
  | .none => decide
  | .str s => simp [normalize_exit_flag, pyEqFalse, pyStr]
  | .int n =>
    by_cases h : n = 0
    · subst h; decide
    · simp [normalize_exit_flag, pyEqFalse, pyStr, h]
  | .float m e =>
    by_cases h : m = 0
    · subst h
      rw [show pyStr (.float 0 e) = "0.0" from pyFloatStr_zero e]
      simp [normalize_exit_flag, pyEqFalse]
      decide
    · simp [normalize_exit_flag, pyEqFalse, pyStr, h]

/-! ### C3 -/

/-- C3 counterexample: the claim characterizes truthiness by the textual,
case-folded form alone, but `" YES "` — whose case-folded form `" yes "`
is not in the truthy set — is normalized to true, because the source also
strips whitespace before matching. -/
theorem C3_counterexample :
    normalize_exit_flag (.str " YES ") = true ∧
    truthyStrings.contains (pyLower (pyStr (.str " YES "))) = false ∧
    PyVal.str " YES " ≠ PyVal.bool true := by decide

/-- C3 (amended): exit-flag normalization returns true exactly for boolean
`True` and for any value whose textual form, whitespace-stripped and then
case-folded, is in `{"true","1","t","yes","y"}`; in particular each of
`{True, "true", "TRUE", "1", 1, "yes", "Y", "t"}` maps to true and each of
`{False, None, "", "0", "no", 0, "random"}` maps to false. -/
theorem C3_exit_flag_amended :
    (∀ v : PyVal, normalize_exit_flag v = true ↔
      (v = PyVal.bool true ∨
        truthyStrings.contains (pyLower (pyStrip (pyStr v))) = true)) ∧
    (normalize_exit_flag (.bool true) = true ∧
      normalize_exit_flag (.str "true") = true ∧
      normalize_exit_flag (.str "TRUE") = true ∧
      normalize_exit_flag (.str "1") = true ∧
      normalize_exit_flag (.int 1) = true ∧
      normalize_exit_flag (.str "yes") = true ∧
      normalize_exit_flag (.str "Y") = true ∧
      normalize_exit_flag (.str "t") = true) ∧
    (normalize_exit_flag (.bool false) = false ∧
      normalize_exit_flag .none = false ∧
      normalize_exit_flag (.str "") = false ∧
      normalize_exit_flag (.str "0") = false ∧
      normalize_exit_flag (.str "no") = false ∧
      normalize_exit_flag (.int 0) = false ∧
      normalize_exit_flag (.str "random") = false) :=
  ⟨exit_flag_characterization, by decide, by decide⟩

/-! ### C10 -/

/-- C10: normalization strips leading and trailing whitespace from the
textual form before matching — on strings it is exactly
stripped-case-folded membership in the truthy set — so `" YES "` is
truthy; a numeric input is matched by its exact textual form, so the
integer `1` is truthy while the float `1.0` (textual form `"1.0"`) is
falsy. -/
theorem C10_strip_and_numeric_text :
    (∀ s : String, normalize_exit_flag (.str s) =
      truthyStrings.contains (pyLower (pyStrip s))) ∧
    normalize_exit_flag (.str " YES ") = true ∧
    normalize_exit_flag (.int 1) = true ∧
    pyStr (.float 10 1) = "1.0" ∧
    normalize_exit_flag (.float 10 1) = false := by
  refine ⟨fun s => ?_, by decide, by decide, by decide, by decide⟩
  simp [normalize_exit_flag, pyEqFalse, pyStr]

/-! ### Curve lemmas -/

/-- The equity of the last point, with an explicit default for `[]`. -/
def lastEquity (c : List EquityPoint) (dflt : Int) : Int :=
  match c.getLast? with
  | some p => p.equity
  | Option.none => dflt

theorem finalEquity_eq_lastEquity (c : List EquityPoint) :
    finalEquity c = lastEquity c 0 := rfl

theorem lastEquity_cons (p : EquityPoint) (c : List EquityPoint) (d : Int) :
    lastEquity (p :: c) d = lastEquity c p.equity := by
  cases h : c.getLast? <;> simp [lastEquity, List.getLast?_cons, h]

theorem lastEquity_append (c1 c2 : List EquityPoint) (d : Int) :
    lastEquity (c1 ++ c2) d = lastEquity c2 (lastEquity c1 d) := by
  unfold lastEquity
  rw [List.getLast?_append]
  cases h : c2.getLast? <;> simp [h]

theorem lastEquity_of_ne_nil (c : List EquityPoint) (d d' : Int) (h : c ≠ []) :
    lastEquity c d = lastEquity c d' := by
  unfold lastEquity
  cases hg : c.getLast? with
  | some p => rfl
  | none => exact absurd (List.getLast?_eq_none_iff.mp hg) h

theorem curvePoints_length (useR : Bool) (base : Int) (l : List TradeRow) :
    ∀ acc : Int, (curvePoints useR base l acc).length = l.length := by
  induction l with
  | nil => intro acc; simp [curvePoints]
  | cons r rs ih => intro acc; simp [curvePoints, ih]

theorem curvePoints_eq_nil_iff (useR : Bool) (base : Int) (l : List TradeRow) (acc : Int) :
    curvePoints useR base l acc = [] ↔ l = [] := by
  cases l <;> simp [curvePoints]

theorem curvePoints_lastEquity (useR : Bool) (base : Int) (l : List TradeRow) :
    ∀ acc : Int,
      lastEquity (curvePoints useR base l acc) (base + acc) = base + acc + sumPnl useR l := by
  induction l with
  | nil => intro acc; simp [curvePoints, sumPnl, lastEquity]
  | cons r rs ih =>
    intro acc
    simp only [curvePoints, lastEquity_cons]
    rw [ih (acc + pnlFilled useR r)]
    simp [sumPnl]
    ring

theorem sumPnl_sortByTsAsc (useR : Bool) (l : List TradeRow) :
    sumPnl useR (sortByTsAsc l) = sumPnl useR l :=
  ((List.perm_insertionSort tsLe l).map (pnlFilled useR)).sum_eq

/-- The final equity of a built curve is the base equity plus the total
P&L of the exits in the range, whatever the anchor timestamp. -/
theorem curveOf_finalEquity (useR : Bool) (base a : Int) (exits : List TradeRow) :
    finalEquity (curveOf useR base a exits) = base + sumPnl useR exits := by
  rw [finalEquity_eq_lastEquity]
  unfold curveOf
  rw [lastEquity_cons]
  have h := curvePoints_lastEquity useR base (sortByTsAsc exits) 0
  simpa [sumPnl_sortByTsAsc] using h

/-! ### Shared concrete data for witnesses and counterexamples -/

/-- A frame with one row that is not an exit (its exit set is empty). -/
def frameNoExits : Frame :=
  ⟨true, true, [⟨some 910, some "B", PyVal.bool false, Option.none, Option.none, Option.none⟩]⟩

/-- The spec's worked example: two exits on symbol A (P&L 100 and −40,
one win) and one non-exit row. -/
def frameTwoExits : Frame :=
  ⟨true, true,
    [⟨some 900, some "A", PyVal.bool true, some 100, Option.none, some true⟩,
     ⟨some 905, some "A", PyVal.bool true, some (-40), Option.none, some false⟩,
     ⟨some 910, some "B", PyVal.bool false, Option.none, Option.none, Option.none⟩]⟩

/-- A frame whose record set lacks `realized_pnl` and carries `pnl`. -/
def framePnlOnly : Frame :=
  ⟨false, false,
    [⟨some 900, some "A", PyVal.str "true", Option.none, some 25, Option.none⟩,
     ⟨some 905, some "B", PyVal.str "no", Option.none, some 99, Option.none⟩]⟩

/-- An exit at timestamp 1 with realized P&L 100. -/
def rowEarly : TradeRow := ⟨some 1, some "A", PyVal.bool true, some 100, Option.none, some true⟩

/-- An exit at timestamp 3 with realized P&L 50. -/
def rowLate : TradeRow := ⟨some 3, some "A", PyVal.bool true, some 50, Option.none, some false⟩

/-! ### C4 -/

/-- C4: on a record set whose exit set is empty the daily summary is all
zeros — in particular `win_rate` is the defined value 0, not a division
error — and whenever the exit set is nonempty `win_rate` is
`wins / total_exits * 100`. -/
theorem C4_daily_summary_zero_exits (f : Frame) :
    (exitRows f = [] → daily_summary f = ⟨0, 0, 0, 0⟩) ∧
    (exitRows f ≠ [] →
      (daily_summary f).win_rate =
        ((daily_summary f).wins : Rat) / ((daily_summary f).total_exits : Rat) * 100) := by
  constructor
  · intro h
    simp [daily_summary, h]
  · intro h
    have hl : (exitRows f).length ≠ 0 := by
      simpa [List.length_eq_zero] using h
    simp [daily_summary, hl]

/-- C4 witness: the zero-exit frame yields the all-zero summary, and on
the spec's worked example the win rate is the quotient formula. -/
theorem C4_daily_summary_zero_exits_witness :
    daily_summary frameNoExits = ⟨0, 0, 0, 0⟩ ∧
    (daily_summary frameTwoExits).win_rate =
      ((daily_summary frameTwoExits).wins : Rat) /
        ((daily_summary frameTwoExits).total_exits : Rat) * 100 :=
  ⟨(C4_daily_summary_zero_exits frameNoExits).1 (by decide),
   (C4_daily_summary_zero_exits frameTwoExits).2 (by decide)⟩

/-! ### C5 -/

/-- C5: the P&L column is selected once per dataset — when the record set
has a `realized_pnl` column both the daily total and the equity curve's
final equity are sums of the `realized_pnl` cells alone, and when it does
not they are sums of the `pnl` cells alone; the two columns are never
mixed within one call. -/
theorem C5_pnl_column_selection (f : Frame) (base a : Int) :
    (f.has_realized_pnl = true →
      (daily_summary f).total_pnl =
        ((exitRows f).map (fun r => r.realized_pnl.getD 0)).sum ∧
      finalEquity (curveOf f.has_realized_pnl base a (exitRows f)) =
        base + ((exitRows f).map (fun r => r.realized_pnl.getD 0)).sum) ∧
    (f.has_realized_pnl = false →
      (daily_summary f).total_pnl =
        ((exitRows f).map (fun r => r.pnl.getD 0)).sum ∧
      finalEquity (curveOf f.has_realized_pnl base a (exitRows f)) =
        base + ((exitRows f).map (fun r => r.pnl.getD 0)).sum) := by
  constructor
  · intro h
    constructor
    · simp only [daily_summary, h]
      rfl
    · rw [curveOf_finalEquity, h]
      rfl
  · intro h
    constructor
    · simp only [daily_summary, h]
      rfl
    · rw [curveOf_finalEquity, h]
      rfl

/-- C5 witness: on a frame with the `realized_pnl` column the total is the
`realized_pnl` sum; on a frame carrying only `pnl` it is the `pnl` sum. -/
theorem C5_pnl_column_selection_witness :
    (daily_summary frameTwoExits).total_pnl =
      ((exitRows frameTwoExits).map (fun r => r.realized_pnl.getD 0)).sum ∧
    (daily_summary framePnlOnly).total_pnl =
      ((exitRows framePnlOnly).map (fun r => r.pnl.getD 0)).sum :=
  ⟨((C5_pnl_column_selection frameTwoExits 0 0).1 rfl).1,
   ((C5_pnl_column_selection framePnlOnly 0 0).2 rfl).1⟩

/-! ### C2 -/

/-- C2 counterexample: on a range frame whose exit set is empty the source
skips the curve builder entirely (`st.info("No exit trades ...")`) and
produces no curve at all, not the claimed one-point anchor curve. -/
theorem C2_counterexample :
    range_curve frameNoExits (some 0) 100000 = Option.none ∧
    range_curve frameNoExits (some 0) 100000 ≠
      some [⟨some (dayStartTs 0), 0, 100000⟩] := by decide

/-- C2 (amended): over a range with zero exit trades no curve is produced
(the builder is skipped behind an informational message); whenever the
range has at least one exit, the curve is the synthetic anchor at the
range start with cumulative P&L 0 and equity equal to the base equity,
followed by exactly one point per exit. -/
theorem C2_zero_exit_curve_amended (f : Frame) (d base : Int) :
    (exitRows f = [] → range_curve f (some d) base = Option.none) ∧
    (exitRows f ≠ [] →
      ∃ pts : List EquityPoint,
        range_curve f (some d) base =
          some (⟨some (dayStartTs d), 0, base⟩ :: pts) ∧
        pts.length = (exitRows f).length) := by
  constructor
  · intro h
    unfold range_curve
    by_cases hr : f.rows = [] <;> simp [hr, h]
  · intro h
    have hr : f.rows ≠ [] := by
      intro hre
      exact h (by simp [exitRows, hre])
    refine ⟨curvePoints f.has_realized_pnl base (sortByTsAsc (exitRows f)) 0, ?_, ?_⟩
    · unfold range_curve curveOf
      simp [hr, h]
    · rw [curvePoints_length]
      exact List.length_insertionSort _ _

/-- C2 witness: a zero-exit range produces no curve, and the two-exit
example produces the anchor followed by two points. -/
theorem C2_zero_exit_curve_witness :
    range_curve frameNoExits (some 0) 100000 = Option.none ∧
    ∃ pts : List EquityPoint,
      range_curve frameTwoExits (some 0) 100000 =
        some (⟨some (dayStartTs 0), 0, 100000⟩ :: pts) ∧
      pts.length = (exitRows frameTwoExits).length :=
  ⟨(C2_zero_exit_curve_amended frameNoExits 0 100000).1 (by decide),
   (C2_zero_exit_curve_amended frameTwoExits 0 100000).2 (by decide)⟩

/-! ### C7 -/

/-- C7 counterexample: with exits of P&L 100 at time 1 and 50 at time 3
split at mid = 2, the whole-range curve ends at 100150 but the
concatenation of the two sub-curves (each re-anchored at the base equity,
second anchor dropped) ends at 100050: the final equity values differ. -/
theorem C7_counterexample :
    finalEquity (curveOf true 100000 0 ([rowEarly] ++ [rowLate])) = 100150 ∧
    finalEquity (concatDropAnchor (curveOf true 100000 0 [rowEarly])
      (curveOf true 100000 2 [rowLate])) = 100050 ∧
    finalEquity (concatDropAnchor (curveOf true 100000 0 [rowEarly])
        (curveOf true 100000 2 [rowLate])) ≠
      finalEquity (curveOf true 100000 0 ([rowEarly] ++ [rowLate])) := by decide

/-- C7 (amended): each curve is anchored at the base equity, so splitting
a range at `mid` and concatenating the two curves (dropping the second
anchor) reproduces the whole-range final equity exactly when the second
segment is empty or the first segment's exits have zero total P&L; in
general the whole-range final equity exceeds the concatenation's final
equity by the first segment's total P&L. -/
theorem C7_split_concat_amended (useR : Bool) (base a a1 a2 mid : Int)
    (E1 E2 : List TradeRow)
    (h1 : ∀ r ∈ E1, ∃ t, r.ts = some t ∧ t ≤ mid)
    (h2 : ∀ r ∈ E2, ∃ t, r.ts = some t ∧ mid < t) :
    (finalEquity (concatDropAnchor (curveOf useR base a1 E1) (curveOf useR base a2 E2)) =
        finalEquity (curveOf useR base a (E1 ++ E2)))
      ↔ (E2 = [] ∨ sumPnl useR E1 = 0) := by
  have hwhole : finalEquity (curveOf useR base a (E1 ++ E2)) =
      base + (sumPnl useR E1 + sumPnl useR E2) := by
    rw [curveOf_finalEquity]
    simp [sumPnl]
  rcases eq_or_ne E2 [] with h | h
  · subst h
    have hsplit : concatDropAnchor (curveOf useR base a1 E1) (curveOf useR base a2 []) =
        curveOf useR base a1 E1 := by
      simp [concatDropAnchor, curveOf, sortByTsAsc, curvePoints]
    rw [hsplit, curveOf_finalEquity, hwhole]
    simp [sumPnl]
  · have hpts : curvePoints useR base (sortByTsAsc E2) 0 ≠ [] := by
      rw [Ne, curvePoints_eq_nil_iff]
      intro hs
      exact h (List.Perm.eq_nil ((List.perm_insertionSort tsLe E2).symm.trans (hs ▸ List.Perm.refl _)))
    have hconcat : finalEquity (concatDropAnchor (curveOf useR base a1 E1)
        (curveOf useR base a2 E2)) = base + sumPnl useR E2 := by
      rw [finalEquity_eq_lastEquity]
      unfold concatDropAnchor curveOf
      rw [List.tail_cons, lastEquity_append,
        lastEquity_of_ne_nil _ _ (base + 0) hpts, curvePoints_lastEquity]
      simp [sumPnl_sortByTsAsc]
    rw [hconcat, hwhole]
    constructor
    · intro he
      right
      omega
    · rintro (h' | h')
      · exact absurd h' h
      · rw [h']
        ring

/-- C7 witness: the amended equivalence at the concrete split of the
counterexample's ledger, with a valid split at mid = 2. -/
theorem C7_split_concat_witness :
    (finalEquity (concatDropAnchor (curveOf true 100000 0 [rowEarly])
        (curveOf true 100000 2 [rowLate])) =
      finalEquity (curveOf true 100000 0 ([rowEarly] ++ [rowLate])))
      ↔ ([rowLate] = ([] : List TradeRow) ∨ sumPnl true [rowEarly] = 0) := by
  apply C7_split_concat_amended true 100000 0 0 2 2 [rowEarly] [rowLate]
  · intro r hr
    have hre : r = rowEarly := by simpa using hr
    subst hre
    exact ⟨1, rfl, by decide⟩
  · intro r hr
    have hrl : r = rowLate := by simpa using hr
    subst hrl
    exact ⟨3, rfl, by decide⟩

/-! ### C6 -/

/-- C6: on a nonempty ledger the latest-exits selector returns the first
`n` of the qualifying rows (exit flag true, selected P&L cell non-null)
sorted descending by timestamp: the result has `min n |qualifying|` rows,
is sorted descending, draws only from the qualifying rows, and is all of
them when fewer than `n` qualify.  On the empty ledger, however, the
section hits `df_all["is_exit"]` on a column-less frame and raises
`KeyError` (modelled `Option.none`) instead of returning zero rows. -/
theorem C6_latest_exits (f : Frame) (n : Nat) :
    latest_exits_section emptyFrame 10 = Option.none ∧
    (latest_exits f n).length = min n (qualifyingExitRows f).length ∧
    List.Sorted tsGe (latest_exits f n) ∧
    (∀ r ∈ latest_exits f n, r ∈ qualifyingExitRows f) ∧
    ((qualifyingExitRows f).length ≤ n →
      (latest_exits f n).Perm (qualifyingExitRows f)) := by
  refine ⟨by decide, ?_, ?_, ?_, ?_⟩
  · unfold latest_exits sortByTsDesc
    rw [List.length_take, List.length_insertionSort]
  · exact List.Pairwise.sublist (List.take_sublist _ _)
      (List.sorted_insertionSort tsGe (qualifyingExitRows f))
  · intro r hr
    exact (List.mem_insertionSort tsGe).mp (List.mem_of_mem_take hr)
  · intro hle
    unfold latest_exits sortByTsDesc
    rw [List.take_of_length_le (by rw [List.length_insertionSort]; exact hle)]
    exact List.perm_insertionSort _ _

/-- A ledger holding exactly 7 qualifying exits, one exit with a null
P&L cell, and one non-exit row. -/
def frameSevenExits : Frame :=
  ⟨true, false,
    [⟨some 10, some "A", PyVal.bool true, some 5, Option.none, Option.none⟩,
     ⟨some 20, some "B", PyVal.str "true", some (-3), Option.none, Option.none⟩,
     ⟨some 30, some "A", PyVal.str "1", some 8, Option.none, Option.none⟩,
     ⟨some 15, some "C", PyVal.bool true, some 2, Option.none, Option.none⟩,
     ⟨some 40, some "A", PyVal.str "yes", some 0, Option.none, Option.none⟩,
     ⟨some 25, some "B", PyVal.bool true, some 1, Option.none, Option.none⟩,
     ⟨some 35, some "C", PyVal.str "t", some (-2), Option.none, Option.none⟩,
     ⟨some 50, some "A", PyVal.bool true, Option.none, some 9, Option.none⟩,
     ⟨some 60, some "B", PyVal.bool false, some 4, Option.none, Option.none⟩]⟩

/-- C6 witness: `getLatestExits(10)` on the 7-qualifying-exit ledger
returns exactly the 7 qualifying rows. -/
theorem C6_latest_exits_witness :
    (latest_exits frameSevenExits 10).length = 7 ∧
    (latest_exits frameSevenExits 10).Perm (qualifyingExitRows frameSevenExits) := by
  have h := C6_latest_exits frameSevenExits 10
  exact ⟨by rw [h.2.1]; decide, h.2.2.2.2 (by decide)⟩

/-! ### Cache lemmas -/

theorem CacheState.lookup_store {κ ν : Type} [BEq κ] [LawfulBEq κ] (c : CacheState κ ν)
    (k : κ) (v : ν) (now : Nat) : (c.store k v now).lookup k = some (v, now) := by
  simp [CacheState.store, CacheState.lookup, List.find?]

theorem CacheState.lookup_clear {κ ν : Type} [BEq κ] (c : CacheState κ ν) (k : κ) :
    (CacheState.clear c).lookup k = Option.none := rfl

/-! ### C8 -/

/-- C8: two calls with an identical key where the second falls within the
TTL window of the first perform at most one underlying fetch — and if the
first call fetched, the second is a cache hit returning the same value.  A
call finding an entry whose age has reached the TTL performs a new fetch,
and so does any call issued right after `clear()`. -/
theorem C8_cache_ttl {κ ν : Type} [BEq κ] [LawfulBEq κ] (fetch : κ → ν) (ttl : Nat)
    (k : κ) (c : CacheState κ ν) (t1 t2 : Nat) (hwin : t2 - t1 < ttl) :
    ((cachedFetch fetch ttl t1 k c).2.2 = true →
      (cachedFetch fetch ttl t2 k (cachedFetch fetch ttl t1 k c).2.1).2.2 = false ∧
      (cachedFetch fetch ttl t2 k (cachedFetch fetch ttl t1 k c).2.1).1 =
        (cachedFetch fetch ttl t1 k c).1) ∧
    ((cachedFetch fetch ttl t1 k c).2.2 &&
      (cachedFetch fetch ttl t2 k (cachedFetch fetch ttl t1 k c).2.1).2.2) = false ∧
    (∀ v t0, c.lookup k = some (v, t0) → ttl ≤ t1 - t0 →
      (cachedFetch fetch ttl t1 k c).2.2 = true) ∧
    (cachedFetch fetch ttl t1 k (CacheState.clear c)).2.2 = true := by
  have hfetched : ∀ c' : CacheState κ ν, (cachedFetch fetch ttl t1 k c').2.2 = true →
      (cachedFetch fetch ttl t2 k (cachedFetch fetch ttl t1 k c').2.1).2.2 = false ∧
      (cachedFetch fetch ttl t2 k (cachedFetch fetch ttl t1 k c').2.1).1 =
        (cachedFetch fetch ttl t1 k c').1 := by
    intro c' hb
    have hstore : (cachedFetch fetch ttl t1 k c').2.1 = c'.store k (fetch k) t1 ∧
        (cachedFetch fetch ttl t1 k c').1 = fetch k := by
      unfold cachedFetch at hb ⊢
      cases hl : c'.lookup k with
      | some e =>
        obtain ⟨v0, t0⟩ := e
        rw [hl] at hb
        by_cases hfresh : t1 - t0 < ttl
        · simp [hfresh] at hb
        · simp [hfresh]
      | none => exact ⟨rfl, rfl⟩
    rw [hstore.1, hstore.2]
    unfold cachedFetch
    rw [CacheState.lookup_store]
    simp [hwin]
  refine ⟨hfetched c, ?_, ?_, ?_⟩
  · cases hb : (cachedFetch fetch ttl t1 k c).2.2 with
    | true => simp [(hfetched c hb).1]
    | false => simp
  · intro v t0 hl hexp
    unfold cachedFetch
    rw [hl]
    simp [Nat.not_lt_of_le hexp]
  · unfold cachedFetch
    rw [CacheState.lookup_clear]

/-- C8 witness: starting from the empty cache, a fetch at time 0 followed
by a call at time 5 (inside the TTL of 10) performs no second fetch, while
a call that finds an entry aged exactly the TTL, or a call after
`clear()`, fetches again. -/
theorem C8_cache_ttl_witness :
    (cachedFetch (fun _ : Nat => (42 : Nat)) 10 5 1
      ((cachedFetch (fun _ : Nat => (42 : Nat)) 10 0 1 ⟨[]⟩).2.1)).2.2 = false ∧
    (cachedFetch (fun _ : Nat => (42 : Nat)) 10 12 1
      (⟨[(1, 42, 2)]⟩ : CacheState Nat Nat)).2.2 = true ∧
    (cachedFetch (fun _ : Nat => (42 : Nat)) 10 12 1
      (CacheState.clear (⟨[(1, 42, 2)]⟩ : CacheState Nat Nat))).2.2 = true := by
  have h1 := C8_cache_ttl (fun _ : Nat => (42 : Nat)) 10 1 (⟨[]⟩ : CacheState Nat Nat)
    0 5 (by decide)
  have h2 := C8_cache_ttl (fun _ : Nat => (42 : Nat)) 10 1
    (⟨[(1, 42, 2)]⟩ : CacheState Nat Nat) 12 12 (by decide)
  exact ⟨(h1.1 (by decide)).1, h2.2.2.1 42 2 (by decide) (by decide), h2.2.2.2⟩

/-! ### C9 -/

/-- C9: `fetch_trades_range` applies its timestamp bound only under
`if start_day and end_day:`; when exactly one of the two dates is given
the date constraint is silently dropped and the result is the same as for
the fully unbounded range (the entire symbol-filtered ledger). -/
theorem C9_one_sided_range (tbl : Frame) (symbol : Option String) (sd ed : Option Int)
    (h : sd.isSome ≠ ed.isSome) :
    fetch_trades_range tbl symbol sd ed =
      fetch_trades_range tbl symbol Option.none Option.none := by
  rcases sd with _ | s <;> rcases ed with _ | e
  · simp at h
  · rfl
  · rfl
  · simp at h

/-- C9 witness: a start date without an end date returns the whole
symbol-filtered ledger, identical to the unbounded call. -/
theorem C9_one_sided_range_witness :
    fetch_trades_range frameSevenExits (some "A") (some 5) Option.none =
      fetch_trades_range frameSevenExits (some "A") Option.none Option.none :=
  C9_one_sided_range frameSevenExits (some "A") (some 5) Option.none (by decide)

/-! ### C1 -/

/-- A Ledger Store whose query always fails. -/
def failing_ledger : TradesKey → Except String Frame := fun _ => .error "network down"

/-- C1 counterexample: when the underlying query fails, the caller of
`fetch_trades` receives the empty frame — the very value a genuinely
empty ledger produces — as a normal success, and a cache entry for the
filter key is created holding that empty frame. -/
theorem C1_counterexample :
    (fetch_trades_cached failing_ledger 0 (Option.none, Option.none) ⟨[]⟩).1 = emptyFrame ∧
    fetch_trades_body (Except.error "network down") =
      fetch_trades_body (Except.ok emptyFrame) ∧
    (fetch_trades_cached failing_ledger 0 (Option.none, Option.none) ⟨[]⟩).2.1.lookup
      (Option.none, Option.none) = some (emptyFrame, 0) := by decide

/-- C1 (amended): if the underlying Ledger Store query fails on a cache
miss, the exception is caught (`st.error` is rendered) and the caller
receives an empty frame as a normal success — indistinguishable from a
genuinely empty ledger — and that empty frame is installed as a fresh
cache entry for the filter key, like any successful result. -/
theorem C1_fetch_failure_amended (ledger : TradesKey → Except String Frame)
    (k : TradesKey) (c : CacheState TradesKey Frame) (now : Nat) (e : String)
    (hmiss : c.lookup k = Option.none) (hfail : ledger k = .error e) :
    (fetch_trades_cached ledger now k c).1 = emptyFrame ∧
    (fetch_trades_cached ledger now k c).2.1.lookup k = some (emptyFrame, now) ∧
    fetch_trades_body (Except.error e) = fetch_trades_body (Except.ok emptyFrame) := by
  have hbody : fetch_trades_body (ledger k) = emptyFrame := by
    rw [hfail]
    rfl
  unfold fetch_trades_cached cachedFetch
  rw [hmiss]
  simp only [hbody]
  exact ⟨trivial, CacheState.lookup_store c k emptyFrame now, rfl⟩

/-- C1 witness: the amended behavior at the always-failing ledger, an
empty cache, and the unfiltered key. -/
theorem C1_fetch_failure_witness :
    (fetch_trades_cached failing_ledger 3 (some "A", Option.none) ⟨[]⟩).1 = emptyFrame ∧
    (fetch_trades_cached failing_ledger 3 (some "A", Option.none) ⟨[]⟩).2.1.lookup
      (some "A", Option.none) = some (emptyFrame, 3) ∧
    fetch_trades_body (Except.error "network down") =
      fetch_trades_body (Except.ok emptyFrame) :=
  C1_fetch_failure_amended failing_ledger (some "A", Option.none) ⟨[]⟩ 3 "network down"
    (by decide) rfl

end Dashboard
